import Mathlib

/-!
Verification development for the OCR Quality Assessment system
(NextFutureHub/OCR).  The repository ships a Next.js client
(`client/src/...`), an API binding (`ocr-api.ts`), and documentation of a
FastAPI backend.  The backend modules themselves (`metrics_calculator.py`,
`main.py`, ...) are not part of the available sources, so the quality-metric
computations are modelled from the specification's §4.3/§4.5–§4.7 wording;
everything that lives in the client sources is embedded from those sources
directly.

Strings are embedded as `List Char` so that all text operations are
executable and kernel-decidable.
-/

namespace OCR

/-! ### Text normalization (modelled from the spec)

Modelled from the spec: §4.3 normalization, "applied identically to both
strings before comparison: case-fold, collapse consecutive whitespace to a
single space, trim ends."  The backend `metrics_calculator.py` is not in the
available sources.  Case folding is modelled per-character with
`Char.toLower`. -/

def isWs (c : Char) : Bool :=
  c = ' ' || c = '\t' || c = '\n' || c = '\r'

theorem dropWhile_length_le {α : Type} (p : α → Bool) (l : List α) :
    (l.dropWhile p).length ≤ l.length := by
  induction l with
  | nil => simp [List.dropWhile]
  | cons x xs ih =>
    simp only [List.dropWhile]
    split
    · simp only [List.length_cons]; omega
    · simp

/-- Collapse every maximal run of whitespace characters to a single space.
The flag records whether the previous character was whitespace. -/
def collapseAux : Bool → List Char → List Char
  | _, [] => []
  | inWs, c :: cs =>
    if isWs c then
      if inWs then collapseAux true cs
      else ' ' :: collapseAux true cs
    else c :: collapseAux false cs

def collapseWs (l : List Char) : List Char := collapseAux false l

/-- Drop leading and trailing spaces (after collapsing, the only whitespace
left is the single space character). -/
def trimSpaces (l : List Char) : List Char :=
  ((l.dropWhile isWs).reverse.dropWhile isWs).reverse

/-- Full normalization: case-fold, collapse whitespace, trim ends. -/
def normalize (l : List Char) : List Char :=
  trimSpaces (collapseWs (l.map Char.toLower))

/-- Whitespace tokenization of a (normalized) character list into words. -/
def wordsOf (l : List Char) : List (List Char) :=
  (l.splitOn ' ').filter (fun w => w ≠ [])

/-! ### Edit distance and longest common subsequence

Modelled from the spec: §4.3 "compute minimum edit distance (insertions,
deletions, substitutions, unit cost each) via dynamic programming". -/

/-- Inner dynamic-programming step for `lev`: `f` is the distance function
from the tail of the first sequence. -/
def levAux {α : Type} [DecidableEq α] (f : List α → Nat) (x : α) :
    List α → Nat
  | [] => f [] + 1
  | y :: ys =>
    min (min (f (y :: ys) + 1) (levAux f x ys + 1))
      (f ys + (if x = y then 0 else 1))

/-- Unit-cost Levenshtein distance. -/
def lev {α : Type} [DecidableEq α] : List α → List α → Nat
  | [] => fun ys => ys.length
  | x :: xs => levAux (lev xs) x

theorem lev_nil_left {α : Type} [DecidableEq α] (ys : List α) :
    lev ([] : List α) ys = ys.length := rfl

theorem lev_nil_right {α : Type} [DecidableEq α] (xs : List α) :
    lev xs ([] : List α) = xs.length := by
  induction xs with
  | nil => rfl
  | cons x xs ih =>
    show lev xs [] + 1 = xs.length + 1
    omega

theorem lev_cons_cons {α : Type} [DecidableEq α] (x y : α) (xs ys : List α) :
    lev (x :: xs) (y :: ys) =
      min (min (lev xs (y :: ys) + 1) (lev (x :: xs) ys + 1))
        (lev xs ys + (if x = y then 0 else 1)) := rfl

/-- Inner step for `lcsLen`. -/
def lcsAux {α : Type} [DecidableEq α] (f : List α → Nat) (x : α) :
    List α → Nat
  | [] => 0
  | y :: ys =>
    if x = y then f ys + 1 else max (f (y :: ys)) (lcsAux f x ys)

/-- Longest-common-subsequence length: the maximal number of matched
(non-substituted, non-inserted, non-deleted) character pairs over all
alignments of the two sequences (spec §4.3, character precision/recall). -/
def lcsLen {α : Type} [DecidableEq α] : List α → List α → Nat
  | [] => fun _ => 0
  | x :: xs => lcsAux (lcsLen xs) x

theorem lcsLen_nil_left {α : Type} [DecidableEq α] (ys : List α) :
    lcsLen ([] : List α) ys = 0 := rfl

theorem lcsLen_nil_right {α : Type} [DecidableEq α] (xs : List α) :
    lcsLen xs ([] : List α) = 0 := by
  cases xs <;> rfl

theorem lcsLen_cons_cons {α : Type} [DecidableEq α] (x y : α) (xs ys : List α) :
    lcsLen (x :: xs) (y :: ys) =
      if x = y then lcsLen xs ys + 1
      else max (lcsLen xs (y :: ys)) (lcsLen (x :: xs) ys) := rfl

theorem lev_self {α : Type} [DecidableEq α] (xs : List α) : lev xs xs = 0 := by
  induction xs with
  | nil => rfl
  | cons x xs ih => simp [lev_cons_cons, ih]

theorem lev_le_max_length {α : Type} [DecidableEq α] (xs ys : List α) :
    lev xs ys ≤ max xs.length ys.length := by
  induction xs generalizing ys with
  | nil => simp [lev_nil_left]
  | cons x xs ihx =>
    induction ys with
    | nil => simp [lev_nil_right]
    | cons y ys ihy =>
      rw [lev_cons_cons]
      have h3 : lev xs ys + (if x = y then 0 else 1) ≤ max xs.length ys.length + 1 := by
        have h2 := ihx ys
        split <;> omega
      simp only [List.length_cons]
      omega

theorem lcsLen_le_left {α : Type} [DecidableEq α] (xs ys : List α) :
    lcsLen xs ys ≤ xs.length := by
  induction xs generalizing ys with
  | nil => simp [lcsLen_nil_left]
  | cons x xs ihx =>
    induction ys with
    | nil => simp [lcsLen_nil_right]
    | cons y ys ihy =>
      rw [lcsLen_cons_cons]
      have h1 := ihx ys
      have h2 := ihx (y :: ys)
      simp only [List.length_cons] at *
      split
      · omega
      · omega

theorem lcsLen_le_right {α : Type} [DecidableEq α] (xs ys : List α) :
    lcsLen xs ys ≤ ys.length := by
  induction xs generalizing ys with
  | nil => simp [lcsLen_nil_left]
  | cons x xs ihx =>
    induction ys with
    | nil => simp [lcsLen_nil_right]
    | cons y ys ihy =>
      rw [lcsLen_cons_cons]
      have h1 := ihx ys
      have h2 := ihx (y :: ys)
      simp only [List.length_cons] at *
      split
      · omega
      · omega

/-! ### Quality metrics (modelled from the spec)

Modelled from the spec: §4.3 TextAligner of the missing backend module
`metrics_calculator.py`.  "CER = edit_distance / max(1, length(normalized
ground_truth)) ... WER = edit_distance over word sequences / max(1,
word_count(ground_truth)) ... normalized_levenshtein = edit_distance_chars /
max(1, max(length(extracted), length(ground_truth))) ... precision = matches
/ max(1, length(extracted)), recall = matches / max(1, length(ground_truth)),
F1 = harmonic mean, with F1 = 0 when both precision and recall are 0.
exact_match = 1 iff normalized extracted_text equals normalized
ground_truth."  The matched character count is modelled as the maximal
number of matched pairs over all alignments, i.e. the LCS length. -/

def charDist (a b : List Char) : Nat := lev (normalize a) (normalize b)

def cer (a b : List Char) : ℚ :=
  (charDist a b : ℚ) / ((max 1 (normalize b).length : ℕ) : ℚ)

def wer (a b : List Char) : ℚ :=
  (lev (wordsOf (normalize a)) (wordsOf (normalize b)) : ℚ) /
    ((max 1 (wordsOf (normalize b)).length : ℕ) : ℚ)

def normalized_levenshtein (a b : List Char) : ℚ :=
  (charDist a b : ℚ) /
    ((max 1 (max (normalize a).length (normalize b).length) : ℕ) : ℚ)

def charMatches (a b : List Char) : Nat := lcsLen (normalize a) (normalize b)

def char_precision (a b : List Char) : ℚ :=
  (charMatches a b : ℚ) / ((max 1 (normalize a).length : ℕ) : ℚ)

def char_recall (a b : List Char) : ℚ :=
  (charMatches a b : ℚ) / ((max 1 (normalize b).length : ℕ) : ℚ)

def f1Of (p r : ℚ) : ℚ :=
  if p + r = 0 then 0 else 2 * p * r / (p + r)

def char_f1 (a b : List Char) : ℚ :=
  f1Of (char_precision a b) (char_recall a b)

def exact_match (a b : List Char) : ℚ :=
  if normalize a = normalize b then 1 else 0

/-- The metrics map of a quality report, keyed as the backend serializes it
(README response example: cer, wer, normalized_levenshtein, exact_match,
char_precision, char_recall, char_f1).  Per-field extension entries are the
optional `field_*` entries appended by FieldScorer; the base map is below. -/
def metricsMap (a b : List Char) : List (String × ℚ) :=
  [("cer", cer a b),
   ("wer", wer a b),
   ("normalized_levenshtein", normalized_levenshtein a b),
   ("exact_match", exact_match a b),
   ("char_precision", char_precision a b),
   ("char_recall", char_recall a b),
   ("char_f1", char_f1 a b)]

theorem natCast_max_one_pos (n : Nat) : (0 : ℚ) < ((max 1 n : ℕ) : ℚ) := by
  have : (1 : ℕ) ≤ max 1 n := le_max_left 1 n
  exact_mod_cast lt_of_lt_of_le Nat.zero_lt_one (by exact_mod_cast this)

theorem cer_nonneg (a b : List Char) : 0 ≤ cer a b := by
  unfold cer
  positivity

theorem wer_nonneg (a b : List Char) : 0 ≤ wer a b := by
  unfold wer
  positivity

theorem normalized_levenshtein_nonneg (a b : List Char) :
    0 ≤ normalized_levenshtein a b := by
  unfold normalized_levenshtein
  positivity

theorem normalized_levenshtein_le_one (a b : List Char) :
    normalized_levenshtein a b ≤ 1 := by
  unfold normalized_levenshtein charDist
  rw [div_le_one (natCast_max_one_pos _)]
  have h := lev_le_max_length (normalize a) (normalize b)
  have h2 : lev (normalize a) (normalize b) ≤
      max 1 (max (normalize a).length (normalize b).length) := by omega
  exact_mod_cast h2

theorem char_precision_nonneg (a b : List Char) : 0 ≤ char_precision a b := by
  unfold char_precision
  positivity

theorem char_precision_le_one (a b : List Char) : char_precision a b ≤ 1 := by
  unfold char_precision charMatches
  rw [div_le_one (natCast_max_one_pos _)]
  have h := lcsLen_le_left (normalize a) (normalize b)
  have h2 : lcsLen (normalize a) (normalize b) ≤ max 1 (normalize a).length := by
    omega
  exact_mod_cast h2

theorem char_recall_nonneg (a b : List Char) : 0 ≤ char_recall a b := by
  unfold char_recall
  positivity

theorem char_recall_le_one (a b : List Char) : char_recall a b ≤ 1 := by
  unfold char_recall charMatches
  rw [div_le_one (natCast_max_one_pos _)]
  have h := lcsLen_le_right (normalize a) (normalize b)
  have h2 : lcsLen (normalize a) (normalize b) ≤ max 1 (normalize b).length := by
    omega
  exact_mod_cast h2

theorem f1Of_nonneg {p r : ℚ} (hp : 0 ≤ p) (hr : 0 ≤ r) : 0 ≤ f1Of p r := by
  unfold f1Of
  split
  · exact le_refl 0
  · rename_i h
    have hpr : 0 < p + r := lt_of_le_of_ne (by linarith) (Ne.symm h)
    positivity

theorem f1Of_le_one {p r : ℚ} (hp : 0 ≤ p) (hp1 : p ≤ 1) (hr : 0 ≤ r)
    (hr1 : r ≤ 1) : f1Of p r ≤ 1 := by
  unfold f1Of
  split
  · exact zero_le_one
  · rename_i h
    have hpr : 0 < p + r := lt_of_le_of_ne (by linarith) (Ne.symm h)
    rw [div_le_one hpr]
    nlinarith

theorem char_f1_nonneg (a b : List Char) : 0 ≤ char_f1 a b :=
  f1Of_nonneg (char_precision_nonneg a b) (char_recall_nonneg a b)

theorem char_f1_le_one (a b : List Char) : char_f1 a b ≤ 1 :=
  f1Of_le_one (char_precision_nonneg a b) (char_precision_le_one a b)
    (char_recall_nonneg a b) (char_recall_le_one a b)

theorem exact_match_nonneg (a b : List Char) : 0 ≤ exact_match a b := by
  unfold exact_match
  split <;> norm_num

theorem exact_match_le_one (a b : List Char) : exact_match a b ≤ 1 := by
  unfold exact_match
  split <;> norm_num

/-! ### Alignment length cap (modelled from the spec)

Modelled from the spec: §4.3 performance policy and §7 AlignmentOverflow of
the missing backend — "inputs are capped at a configured maximum length
(e.g., truncate both strings to the cap) before alignment", "the core
truncates and flags the report instead of failing".  The cap value is a
configuration parameter. -/

def truncateToCap (cap : Nat) (l : List Char) : List Char := l.take cap

def truncationFlag (cap : Nat) (a b : List Char) : Bool :=
  cap < a.length || cap < b.length

/-- Metrics computed after capping both strings, as §4.3 requires. -/
def cappedMetrics (cap : Nat) (a b : List Char) : List (String × ℚ) :=
  metricsMap (truncateToCap cap a) (truncateToCap cap b)

/-! ### The QualityReport shape

Embedded from the source: `ColumnData`, `PageData` and `OCRResponse` in
`client/src/lib/ocr-api.ts` (src/unnamed/part_002, lines 7–36).  The first
six `OCRResponse` fields are required; the last five are optional (`?` in
the TypeScript interface). -/

inductive Side
  | left
  | right
deriving DecidableEq

structure ColumnData where
  text : String
  side : Side
  language : String
  items_count : Nat
  confidence_avg : ℚ

structure PageData where
  page_number : Nat
  text : String
  columns : List ColumnData
  columns_count : Nat
  has_multiple_columns : Bool

structure OCRResponse where
  extracted_text : String
  structured_data : List (String × Option String)
  metrics : List (String × ℚ)
  json_validity : Bool
  schema_consistency : Bool
  processing_time : ℚ
  pages : Option (List PageData)
  total_pages : Option Nat
  has_multiple_columns : Option Bool
  columns : Option (List ColumnData)
  columns_count : Option Nat

/-- The six keys every serialized OCRResponse carries. -/
def requiredResponseKeys : List String :=
  ["extracted_text", "structured_data", "metrics", "json_validity",
   "schema_consistency", "processing_time"]

/-- The optional keys actually present in a serialized response: a key is
emitted exactly when the optional field is set. -/
def optionalResponseKeys (r : OCRResponse) : List String :=
  (if r.pages.isSome then ["pages"] else []) ++
  (if r.total_pages.isSome then ["total_pages"] else []) ++
  (if r.has_multiple_columns.isSome then ["has_multiple_columns"] else []) ++
  (if r.columns.isSome then ["columns"] else []) ++
  (if r.columns_count.isSome then ["columns_count"] else [])

/-- All keys of the serialized response. -/
def responseKeys (r : OCRResponse) : List String :=
  requiredResponseKeys ++ optionalResponseKeys r

theorem responseKeys_subset (r : OCRResponse) (k : String)
    (h : k ∈ responseKeys r) :
    k ∈ requiredResponseKeys ++
      ["pages", "total_pages", "has_multiple_columns", "columns",
       "columns_count"] := by
  simp only [responseKeys, optionalResponseKeys, List.mem_append] at h ⊢
  rcases h with h | h
  · exact Or.inl h
  · right
    split_ifs at h <;> simp_all <;> tauto

/-! ### Report-building pipeline (modelled from the spec)

Modelled from the spec: §2–§4 and §4.7 QualityReportBuilder of the missing
backend (`ocr_service.py`, `pdf_processor.py`, `data_extractor.py`,
`main.py`).  Inputs are per-page token lists plus the optional ground
truth, expected fields, schema, and the elapsed-time measurement (§4.7
passes a start timestamp; the elapsed time is an input here).  Column
clustering thresholds are, per §9, not discoverable from the available
material; pages are assembled in reading order as a single column, which
does not affect the claims settled against this model. -/

structure Token where
  text : String
  x : ℚ
  y : ℚ
  width : ℚ
  height : ℚ
  confidence : ℚ
  page : Nat

/-- Stable insertion sort (kernel-computable). -/
def insertBy {α : Type} (le : α → α → Bool) (x : α) : List α → List α
  | [] => [x]
  | y :: ys => if le x y then x :: y :: ys else y :: insertBy le x ys

def sortBy {α : Type} (le : α → α → Bool) (l : List α) : List α :=
  l.foldr (insertBy le) []

/-- Reading order within a page: top-to-bottom, then left-to-right. -/
def tokenLE (t u : Token) : Bool :=
  t.page < u.page ||
    (t.page = u.page && (t.y < u.y || (t.y = u.y && t.x ≤ u.x)))

def sortTokens (ts : List Token) : List Token := sortBy tokenLE ts

def assembleText (ts : List Token) : List Char :=
  (String.intercalate " " ((sortTokens ts).map Token.text)).data

/-- Script-based language detection (spec §4.1), minor-presence threshold
modelled as one character. -/
def isCyr (c : Char) : Bool :=
  ('а' ≤ c && c ≤ 'я') || ('А' ≤ c && c ≤ 'Я') || c = 'ё' || c = 'Ё'

def isLat (c : Char) : Bool :=
  ('a' ≤ c && c ≤ 'z') || ('A' ≤ c && c ≤ 'Z')

def detectLanguage (l : List Char) : String :=
  let cyr := (l.filter isCyr).length
  let lat := (l.filter isLat).length
  if cyr > 0 && lat > 0 then "mixed"
  else if cyr > 0 then "ru"
  else if lat > 0 then "en"
  else "other"

def columnOf (ts : List Token) : ColumnData :=
  let text := assembleText ts
  { text := String.mk text
    side := Side.left
    language := detectLanguage text
    items_count := ts.length
    confidence_avg :=
      if ts.length = 0 then 0
      else (ts.map Token.confidence).sum / (ts.length : ℚ) }

def pageIndicesOf (ts : List Token) : List Nat :=
  sortBy (fun a b => a ≤ b) ((ts.map Token.page).dedup)

def buildPages (ts : List Token) : List PageData :=
  (pageIndicesOf ts).map (fun p =>
    let pts := ts.filter (fun t => t.page = p)
    { page_number := p + 1
      text := String.mk (assembleText pts)
      columns := [columnOf pts]
      columns_count := 1
      has_multiple_columns := false })

/-! Field extraction (spec §4.4): one strategy per field of the fixed
vocabulary.  The exact pattern set is an open question per §9; a
representative strategy is modelled for `date` (fully-structured
dd.mm.yyyy pattern) and `email` (word containing `@`); the remaining
fields yield no value, which §4.4 calls a normal, non-error outcome. -/

def fieldVocabulary : List String :=
  ["name", "date", "phone", "email", "address", "passport", "inn", "amount"]

def isDatePattern (w : List Char) : Bool :=
  match w with
  | [d1, d2, '.', m1, m2, '.', y1, y2, y3, y4] =>
    d1.isDigit && d2.isDigit && m1.isDigit && m2.isDigit &&
      y1.isDigit && y2.isDigit && y3.isDigit && y4.isDigit
  | _ => false

def extractDate (text : List Char) : Option String :=
  ((wordsOf (collapseWs text)).find? isDatePattern).map String.mk

def extractEmail (text : List Char) : Option String :=
  ((wordsOf (collapseWs text)).find? (fun w => w.contains '@')).map String.mk

def extractField (text : List Char) : String → Option String
  | "date" => extractDate text
  | "email" => extractEmail text
  | _ => none

/-- Fields not requested are skipped when expected_fields is given;
otherwise all vocabulary fields are attempted (spec §4.4). -/
def extractFields (text : List Char) (expected : Option (List String)) :
    List (String × Option String) :=
  let fields := match expected with
    | some fs => fieldVocabulary.filter (fun f => fs.contains f)
    | none => fieldVocabulary
  fields.map (fun f => (f, extractField text f))

/-- Schema consistency (spec §4.6): every required key present with a
non-null value.  No schema supplied ⇒ true. -/
def schemaConsistent (data : List (String × Option String))
    (schema : Option (List String)) : Bool :=
  match schema with
  | none => true
  | some required =>
    required.all (fun k => ((data.lookup k).join).isSome)

structure EngineInput where
  tokens : List Token
  ground_truth : Option (List Char)
  expected_fields : Option (List String)
  schema : Option (List String)
  elapsed : ℚ

/-- The orchestration of §4.7: assemble text, extract fields, align with
the (capped) ground truth, validate the schema and build the immutable
report.  `json_validity` is true by construction (§4.6).  The serialized
report has no slot for the truncation condition: `OCRResponse` (the shape
every report is delivered in) declares no such field. -/
def buildQualityReport (cap : Nat) (inp : EngineInput) : OCRResponse :=
  let text := assembleText inp.tokens
  let data := extractFields text inp.expected_fields
  let pages := buildPages inp.tokens
  { extracted_text := String.mk text
    structured_data := data
    metrics :=
      match inp.ground_truth with
      | some gt => cappedMetrics cap text gt
      | none => []
    json_validity := true
    schema_consistency := schemaConsistent data inp.schema
    processing_time := inp.elapsed
    pages := some pages
    total_pages := some pages.length
    has_multiple_columns := some (pages.any PageData.has_multiple_columns)
    columns := some (pages.flatMap PageData.columns)
    columns_count := some (pages.map PageData.columns_count).sum }

/-! ### Upload boundary handlers

Embedded from the source: `DocUpload.handleFile`
(src/unnamed/part_001, lines 19–31) and `OCRUpload.handleFile`
(`client/src/components/ocr-upload.tsx`, lines 27–52).  A call produces
exactly one outcome: either the processing callback is invoked
(`onFileUpload(file)` / `processDocumentOCR({file})`) or a destructive
toast is shown and the handler returns; no retry happens. -/

inductive UploadOutcome
  | invokeProcessing
  | rejectToast (title desc : String)
deriving DecidableEq

/-- `name.endsWith(suffix)` over the underlying character lists. -/
def strEndsWith (s suffix : String) : Bool :=
  suffix.data.isSuffixOf s.data

/-- `file.type === 'text/plain' || file.name.endsWith('.txt') ||
file.type === 'application/pdf' || file.name.endsWith('.pdf')`. -/
def docUploadAccepts (ftype fname : String) : Bool :=
  ftype = "text/plain" || strEndsWith fname ".txt" ||
    ftype = "application/pdf" || strEndsWith fname ".pdf"

def docUploadHandleFile (ftype fname : String) : UploadOutcome :=
  if docUploadAccepts ftype fname then .invokeProcessing
  else .rejectToast "Invalid File Type" "Please upload a .txt or .pdf file."

def supportedFormats : List String :=
  [".jpg", ".jpeg", ".png", ".bmp", ".tiff", ".pdf"]

/-- `'.' + file.name.split('.').pop()?.toLowerCase()`. -/
def fileExtension (fname : String) : String :=
  "." ++ String.mk (((fname.data.splitOn '.').getLastD []).map Char.toLower)

def ocrUploadHandleFile (fname : String) (fsize : Nat) : UploadOutcome :=
  if ¬ (supportedFormats.contains (fileExtension fname)) then
    .rejectToast "Неподдерживаемый формат файла"
      ("Поддерживаемые форматы: " ++ String.intercalate ", " supportedFormats)
  else if fsize > 10 * 1024 * 1024 then
    .rejectToast "Файл слишком большой" "Максимальный размер файла: 10MB"
  else .invokeProcessing

/-! ### The fetch wrapper of `processDocumentOCR`

Embedded from the source: `processDocumentOCR`
(src/unnamed/part_002, lines 58–85).  The HTTP response is a value: `ok`
and `status` from fetch, `errorDetail` is the `detail` field of the error
body after `response.json().catch(() => ({}))` (`none` when the body is
not parseable JSON or carries no detail), `reportBody` the parsed report
used on the success path. -/

structure FetchResponse where
  ok : Bool
  status : Nat
  errorDetail : Option String
  reportBody : OCRResponse

def httpStatusMessage (status : Nat) : String :=
  "HTTP error! status: " ++ toString status

/-- `errorData.detail || ` fallback: JavaScript `||` falls back on a
missing or empty detail. -/
def errorMessageOf (status : Nat) (detail : Option String) : String :=
  match detail with
  | some d => if d = "" then httpStatusMessage status else d
  | none => httpStatusMessage status

def processDocumentOCR (r : FetchResponse) : Except String OCRResponse :=
  if r.ok then .ok r.reportBody
  else .error (errorMessageOf r.status r.errorDetail)

/-! ### `askQuestion` (server action)

Embedded from the source: `askQuestion` in `client/src/app/actions.ts`
(src/client/src/ai/flows/llm-chat-with-document.ts bundle, lines 95–106).
The underlying LLM flow `llmChatWithDocument` either resolves with an
`{answer}` object or throws; its outcome is the explicit argument. -/

structure LLMChatOutput where
  answer : String

def askQuestionErrorMessage : String :=
  "Sorry, I encountered an error while processing your question."

def askQuestion (flowResult : Except String LLMChatOutput) : String :=
  match flowResult with
  | .ok out => out.answer
  | .error _ => askQuestionErrorMessage

/-! ### Page navigation in `OCRColumnsDisplay`

Embedded from the source: `currentPage`, `goToPrevPage`, `goToNextPage`
(src/unnamed/part_000, lines 17 and 25–35).  `currentPage` starts at 0;
with a non-empty pages list, prev sets `Math.max(0, p - 1)` and next sets
`Math.min(pages.length - 1, p + 1)`.  The index is an integer to mirror
JavaScript arithmetic exactly. -/

inductive NavOp
  | prev
  | next
deriving DecidableEq

def navStep (numPages : Nat) (p : Int) : NavOp → Int
  | .prev => max 0 (p - 1)
  | .next => min ((numPages : Int) - 1) (p + 1)

def navRun (numPages : Nat) (ops : List NavOp) : Int :=
  ops.foldl (navStep numPages) 0

theorem navStep_bounds (numPages : Nat) (h : 1 ≤ numPages) (p : Int)
    (hp0 : 0 ≤ p) (hp1 : p ≤ (numPages : Int) - 1) (op : NavOp) :
    0 ≤ navStep numPages p op ∧ navStep numPages p op ≤ (numPages : Int) - 1 := by
  have hn : (1 : Int) ≤ (numPages : Int) := by exact_mod_cast h
  cases op <;> simp only [navStep] <;> omega

theorem navRun_bounds_aux (numPages : Nat) (h : 1 ≤ numPages) :
    ∀ (ops : List NavOp) (p : Int), 0 ≤ p → p ≤ (numPages : Int) - 1 →
      0 ≤ ops.foldl (navStep numPages) p ∧
        ops.foldl (navStep numPages) p ≤ (numPages : Int) - 1 := by
  intro ops
  induction ops with
  | nil => intro p hp0 hp1; exact ⟨hp0, hp1⟩
  | cons op ops ih =>
    intro p hp0 hp1
    have hs := navStep_bounds numPages h p hp0 hp1 op
    exact ih (navStep numPages p op) hs.1 hs.2

/-! ## Shared helper lemmas -/

theorem metrics_zero_of_normalize_eq (a b : List Char)
    (h : normalize a = normalize b) :
    cer a b = 0 ∧ wer a b = 0 ∧ normalized_levenshtein a b = 0 ∧
      exact_match a b = 1 := by
  refine ⟨?_, ?_, ?_, ?_⟩
  · unfold cer charDist
    rw [h, lev_self]
    simp
  · unfold wer
    rw [h, lev_self]
    simp
  · unfold normalized_levenshtein charDist
    rw [h, lev_self]
    simp
  · unfold exact_match
    rw [if_pos h]

theorem mem_optionalKeys (r : OCRResponse) (k : String) :
    k ∈ optionalResponseKeys r ↔
      (k = "pages" ∧ r.pages.isSome = true) ∨
      (k = "total_pages" ∧ r.total_pages.isSome = true) ∨
      (k = "has_multiple_columns" ∧ r.has_multiple_columns.isSome = true) ∨
      (k = "columns" ∧ r.columns.isSome = true) ∨
      (k = "columns_count" ∧ r.columns_count.isSome = true) := by
  simp only [optionalResponseKeys, List.mem_append]
  split_ifs <;> simp_all <;> tauto

/-- A report with every optional field absent. -/
def emptyReport : OCRResponse :=
  { extracted_text := ""
    structured_data := []
    metrics := []
    json_validity := true
    schema_consistency := true
    processing_time := 0
    pages := none
    total_pages := none
    has_multiple_columns := none
    columns := none
    columns_count := none }

/-- A report with every optional field present. -/
def fullReport : OCRResponse :=
  { emptyReport with
    pages := some []
    total_pages := some 1
    has_multiple_columns := some false
    columns := some []
    columns_count := some 1 }

/-! ## Claims -/

/-- C1: for every extracted_text and ground_truth that are equal after
normalization (case-fold, collapse consecutive whitespace, trim), the
computed metrics satisfy cer = 0, wer = 0, normalized_levenshtein = 0 and
exact_match = 1. -/
theorem metrics_identity (a b : List Char) (h : normalize a = normalize b) :
    cer a b = 0 ∧ wer a b = 0 ∧ normalized_levenshtein a b = 0 ∧
      exact_match a b = 1 :=
  metrics_zero_of_normalize_eq a b h

/-- C1 witness: "A  b " and " a b" normalize identically, so all distance
metrics vanish and exact_match is 1. -/
theorem metrics_identity_witness :
    cer "A  b ".data " a b".data = 0 ∧ wer "A  b ".data " a b".data = 0 ∧
      normalized_levenshtein "A  b ".data " a b".data = 0 ∧
      exact_match "A  b ".data " a b".data = 1 :=
  metrics_identity "A  b ".data " a b".data (by decide)

/-- C2: when both strings are empty after normalization, cer, wer and
normalized_levenshtein are 0 and exact_match is 1; every denominator is
`max 1 ·`-guarded, hence positive, so no division by zero occurs. -/
theorem metrics_both_empty_zero (a b : List Char)
    (ha : normalize a = []) (hb : normalize b = []) :
    cer a b = 0 ∧ wer a b = 0 ∧ normalized_levenshtein a b = 0 ∧
      exact_match a b = 1 ∧
      0 < (max 1 (normalize b).length : ℕ) ∧
      0 < (max 1 (wordsOf (normalize b)).length : ℕ) ∧
      0 < (max 1 (max (normalize a).length (normalize b).length) : ℕ) := by
  have h := metrics_zero_of_normalize_eq a b (ha.trans hb.symm)
  exact ⟨h.1, h.2.1, h.2.2.1, h.2.2.2, by omega, by omega, by omega⟩

/-- C2 witness: " " and "" are both empty after normalization. -/
theorem metrics_both_empty_zero_witness :
    cer " ".data "".data = 0 ∧ wer " ".data "".data = 0 ∧
      normalized_levenshtein " ".data "".data = 0 ∧
      exact_match " ".data "".data = 1 ∧
      0 < (max 1 (normalize "".data).length : ℕ) ∧
      0 < (max 1 (wordsOf (normalize "".data)).length : ℕ) ∧
      0 < (max 1 (max (normalize " ".data).length (normalize "".data).length) : ℕ) :=
  metrics_both_empty_zero " ".data "".data (by decide) (by decide)

/-- C3: the report-building pipeline is a pure function of the token
layout, optional references and elapsed-time input: two invocations with
identical inputs produce identical QualityReports. -/
theorem buildQualityReport_deterministic (cap : Nat) (i j : EngineInput)
    (h : i = j) : buildQualityReport cap i = buildQualityReport cap j := by
  rw [h]

def tokenC3 : Token :=
  { text := "Иван Иванов 01.01.2023", x := 0, y := 0, width := 10,
    height := 1, confidence := 9 / 10, page := 0 }

def inputC3 : EngineInput :=
  { tokens := [tokenC3]
    ground_truth := some "Иван Иванов 01.01.2023".data
    expected_fields := some ["name", "date"]
    schema := some ["name"]
    elapsed := 2 }

/-- C3 witness: two invocations on the same concrete input agree. -/
theorem buildQualityReport_deterministic_witness :
    buildQualityReport 1000 inputC3 = buildQualityReport 1000 inputC3 :=
  buildQualityReport_deterministic 1000 inputC3 inputC3 rfl

/-- C4 (amended): for every input exceeding the alignment cap, the core
truncates both strings to the cap (the alignment inputs have length at
most the cap, and the computation is total, so nothing fails) and the
truncation condition is computed; but the produced QualityReport offers no
field recording that truncation occurred — the OCRResponse shape carries
only the six required and five optional declared keys. -/
theorem truncation_cap_no_report_field (cap : Nat) (a b : List Char)
    (h : cap < a.length ∨ cap < b.length) :
    (truncateToCap cap a).length ≤ cap ∧
      (truncateToCap cap b).length ≤ cap ∧
      truncationFlag cap a b = true ∧
      (∀ r : OCRResponse, "truncated" ∉ responseKeys r) := by
  refine ⟨?_, ?_, ?_, ?_⟩
  · simp only [truncateToCap, List.length_take]
    omega
  · simp only [truncateToCap, List.length_take]
    omega
  · unfold truncationFlag
    rcases h with h | h <;> simp [h]
  · intro r hr
    exact absurd (responseKeys_subset r _ hr) (by decide)

/-- C4 witness: with cap 4 and the six-character string "abcdef", the
truncated string fits the cap and the truncation flag is raised. -/
theorem truncation_cap_no_report_field_witness :
    (truncateToCap 4 "abcdef".data).length ≤ 4 ∧
      truncationFlag 4 "abcdef".data "ab".data = true :=
  ⟨(truncation_cap_no_report_field 4 "abcdef".data "ab".data
      (Or.inl (by decide))).1,
   (truncation_cap_no_report_field 4 "abcdef".data "ab".data
      (Or.inl (by decide))).2.2.1⟩

def tokenC4 : Token :=
  { text := "abcdef", x := 0, y := 0, width := 1, height := 1,
    confidence := 1, page := 0 }

def inputC4 : EngineInput :=
  { tokens := [tokenC4]
    ground_truth := some "ab".data
    expected_fields := none
    schema := none
    elapsed := 0 }

/-- C4 counterexample: with cap 4, the extracted text "abcdef" is over the
cap and the truncation flag is true, yet the report built for this input
carries exactly the eleven declared OCRResponse keys — none of them
records that truncation occurred, refuting "the produced QualityReport
contains a field recording that truncation occurred". -/
theorem truncation_field_counterexample :
    truncationFlag 4 (assembleText inputC4.tokens) "ab".data = true ∧
      responseKeys (buildQualityReport 4 inputC4) =
        ["extracted_text", "structured_data", "metrics", "json_validity",
         "schema_consistency", "processing_time", "pages", "total_pages",
         "has_multiple_columns", "columns", "columns_count"] ∧
      "truncated" ∉ responseKeys (buildQualityReport 4 inputC4) :=
  ⟨by decide, by decide, by decide⟩

/-- C5 (amended): every entry of the base metrics map is nonnegative, and
every entry other than cer and wer lies in [0,1]; cer and wer can exceed 1
when the extracted text is much longer than the ground truth. -/
theorem metrics_range_amended (a b : List Char) (kv : String × ℚ)
    (h : kv ∈ metricsMap a b) :
    0 ≤ kv.2 ∧ (kv.1 ≠ "cer" → kv.1 ≠ "wer" → kv.2 ≤ 1) := by
  simp only [metricsMap, List.mem_cons, List.not_mem_nil, or_false] at h
  rcases h with h | h | h | h | h | h | h <;> subst h
  · exact ⟨cer_nonneg a b, fun hc _ => absurd rfl hc⟩
  · exact ⟨wer_nonneg a b, fun _ hw => absurd rfl hw⟩
  · exact ⟨normalized_levenshtein_nonneg a b,
      fun _ _ => normalized_levenshtein_le_one a b⟩
  · exact ⟨exact_match_nonneg a b, fun _ _ => exact_match_le_one a b⟩
  · exact ⟨char_precision_nonneg a b, fun _ _ => char_precision_le_one a b⟩
  · exact ⟨char_recall_nonneg a b, fun _ _ => char_recall_le_one a b⟩
  · exact ⟨char_f1_nonneg a b, fun _ _ => char_f1_le_one a b⟩

/-- C5 witness: the char_f1 entry of a concrete metrics map lies in
[0,1]. -/
theorem metrics_range_amended_witness :
    0 ≤ char_f1 "ab".data "ac".data ∧ char_f1 "ab".data "ac".data ≤ 1 := by
  have h := metrics_range_amended "ab".data "ac".data
    ("char_f1", char_f1 "ab".data "ac".data) (by simp [metricsMap])
  exact ⟨h.1, h.2 (by decide) (by decide)⟩

/-- C5 counterexample: for extracted "abcd" against ground truth "a" the
cer entry of the metrics map equals 3, outside [0,1], refuting "every
metric value other than the per-field extension entries lies in [0,1]". -/
theorem cer_exceeds_one_counterexample :
    ("cer", cer "abcd".data "a".data) ∈ metricsMap "abcd".data "a".data ∧
      cer "abcd".data "a".data = 3 ∧
      ¬ (cer "abcd".data "a".data ≤ 1) := by
  have hcer : cer "abcd".data "a".data = 3 := by
    norm_num [cer, charDist,
      show lev (normalize "abcd".data) (normalize "a".data) = 3 from by decide,
      show (normalize "a".data).length = 1 from by decide]
  refine ⟨by simp [metricsMap], hcer, ?_⟩
  rw [hcer]
  norm_num

/-- C6: every serialized OCRResponse carries the six required keys
extracted_text, structured_data, metrics, json_validity,
schema_consistency, processing_time; each of the five optional keys is
present exactly when its field is set, and both all-absent and all-present
responses exist. -/
theorem response_shape_keys :
    (∀ r : OCRResponse,
      (∀ k ∈ requiredResponseKeys, k ∈ responseKeys r) ∧
      (("pages" ∈ responseKeys r) ↔ r.pages.isSome = true) ∧
      (("total_pages" ∈ responseKeys r) ↔ r.total_pages.isSome = true) ∧
      (("has_multiple_columns" ∈ responseKeys r) ↔
        r.has_multiple_columns.isSome = true) ∧
      (("columns" ∈ responseKeys r) ↔ r.columns.isSome = true) ∧
      (("columns_count" ∈ responseKeys r) ↔ r.columns_count.isSome = true)) ∧
    (∃ r : OCRResponse, optionalResponseKeys r = []) ∧
    (∃ r : OCRResponse, optionalResponseKeys r =
      ["pages", "total_pages", "has_multiple_columns", "columns",
       "columns_count"]) := by
  refine ⟨?_, ⟨emptyReport, rfl⟩, ⟨fullReport, rfl⟩⟩
  intro r
  refine ⟨fun k hk => List.mem_append_left _ hk, ?_, ?_, ?_, ?_, ?_⟩ <;>
    simp [responseKeys, requiredResponseKeys, mem_optionalKeys]

/-- C6 witness: the required key extracted_text is present on a concrete
report. -/
theorem response_shape_keys_witness :
    "extracted_text" ∈ responseKeys emptyReport :=
  (response_shape_keys.1 emptyReport).1 "extracted_text" (by decide)

/-- C7: both upload handlers reject a file whose type/extension is outside
the supported set before the core runs — the outcome is the descriptive
toast, never the processing invocation; a call produces exactly one
outcome, so no retry happens. -/
theorem upload_rejects_unsupported :
    (∀ ftype fname : String, docUploadAccepts ftype fname = false →
      docUploadHandleFile ftype fname =
        UploadOutcome.rejectToast "Invalid File Type"
          "Please upload a .txt or .pdf file." ∧
      docUploadHandleFile ftype fname ≠ UploadOutcome.invokeProcessing) ∧
    (∀ (fname : String) (fsize : Nat),
      supportedFormats.contains (fileExtension fname) = false →
      ocrUploadHandleFile fname fsize =
        UploadOutcome.rejectToast "Неподдерживаемый формат файла"
          ("Поддерживаемые форматы: " ++
            String.intercalate ", " supportedFormats) ∧
      ocrUploadHandleFile fname fsize ≠ UploadOutcome.invokeProcessing) := by
  constructor
  · intro ftype fname h
    have he : docUploadHandleFile ftype fname =
        UploadOutcome.rejectToast "Invalid File Type"
          "Please upload a .txt or .pdf file." := by
      unfold docUploadHandleFile
      simp [h]
    refine ⟨he, ?_⟩
    rw [he]
    intro hc
    exact UploadOutcome.noConfusion hc
  · intro fname fsize h
    have he : ocrUploadHandleFile fname fsize =
        UploadOutcome.rejectToast "Неподдерживаемый формат файла"
          ("Поддерживаемые форматы: " ++
            String.intercalate ", " supportedFormats) := by
      unfold ocrUploadHandleFile
      rw [h]
      simp
    refine ⟨he, ?_⟩
    rw [he]
    intro hc
    exact UploadOutcome.noConfusion hc

/-- C7 witness: an .exe upload is rejected by both handlers with the
descriptive message. -/
theorem upload_rejects_unsupported_witness :
    docUploadHandleFile "application/octet-stream" "virus.exe" =
      UploadOutcome.rejectToast "Invalid File Type"
        "Please upload a .txt or .pdf file." ∧
    ocrUploadHandleFile "doc.exe" 100 =
      UploadOutcome.rejectToast "Неподдерживаемый формат файла"
        ("Поддерживаемые форматы: " ++
          String.intercalate ", " supportedFormats) :=
  ⟨(upload_rejects_unsupported.1 "application/octet-stream" "virus.exe"
      (by decide)).1,
   (upload_rejects_unsupported.2 "doc.exe" 100 (by decide)).1⟩

/-- C8: when the HTTP response is not ok, processDocumentOCR throws an
Error carrying the server's detail message (or the HTTP-status message
when no detail is parseable) and never returns a report; when the response
is ok it returns the parsed report. -/
theorem processDocumentOCR_error_behavior (r : FetchResponse) :
    (r.ok = true → processDocumentOCR r = Except.ok r.reportBody) ∧
    (r.ok = false →
      processDocumentOCR r =
        Except.error (errorMessageOf r.status r.errorDetail) ∧
      (∀ rep, processDocumentOCR r ≠ Except.ok rep) ∧
      (∀ d, r.errorDetail = some d → d ≠ "" →
        errorMessageOf r.status r.errorDetail = d) ∧
      (r.errorDetail = none →
        errorMessageOf r.status r.errorDetail = httpStatusMessage r.status)) := by
  constructor
  · intro h
    unfold processDocumentOCR
    simp [h]
  · intro h
    have he : processDocumentOCR r =
        Except.error (errorMessageOf r.status r.errorDetail) := by
      unfold processDocumentOCR
      simp [h]
    refine ⟨he, ?_, ?_, ?_⟩
    · intro rep hc
      rw [he] at hc
      exact Except.noConfusion hc
    · intro d hd hne
      unfold errorMessageOf
      rw [hd]
      simp [hne]
    · intro hn
      unfold errorMessageOf
      rw [hn]

def fetch500 : FetchResponse :=
  { ok := false, status := 500, errorDetail := none,
    reportBody := emptyReport }

/-- C8 witness: a 500 response without parseable detail throws the
HTTP-status message. -/
theorem processDocumentOCR_error_behavior_witness :
    processDocumentOCR fetch500 = Except.error "HTTP error! status: 500" := by
  have h := (processDocumentOCR_error_behavior fetch500).2 rfl
  rw [h.1, h.2.2.2 rfl]
  rfl

/-- C9: askQuestion always resolves to a string — when the LLM flow
succeeds it returns the answer, and when the flow throws it returns the
fixed fallback message instead of propagating the exception. -/
theorem askQuestion_total_fallback (res : Except String LLMChatOutput) :
    (∀ out, res = Except.ok out → askQuestion res = out.answer) ∧
    (∀ e, res = Except.error e →
      askQuestion res =
        "Sorry, I encountered an error while processing your question.") := by
  constructor
  · intro out h
    rw [h]
    rfl
  · intro e h
    rw [h]
    rfl

/-- C9 witness: a throwing flow yields the fallback message. -/
theorem askQuestion_total_fallback_witness :
    askQuestion (Except.error "LLM flow threw") =
      "Sorry, I encountered an error while processing your question." :=
  (askQuestion_total_fallback (Except.error "LLM flow threw")).2
    "LLM flow threw" rfl

/-- C10: for a non-empty pages list, currentPage starts at 0 and every
sequence of goToPrevPage/goToNextPage operations keeps it within
[0, pages.length - 1], so pages[currentPage] is always a valid index. -/
theorem currentPage_in_bounds (numPages : Nat) (h : 1 ≤ numPages)
    (ops : List NavOp) :
    navRun numPages [] = 0 ∧
      0 ≤ navRun numPages ops ∧ navRun numPages ops < (numPages : Int) := by
  have h0 : (0 : Int) ≤ (numPages : Int) - 1 := by
    have : (1 : Int) ≤ (numPages : Int) := by exact_mod_cast h
    omega
  have hb := navRun_bounds_aux numPages h ops 0 le_rfl h0
  refine ⟨rfl, hb.1, ?_⟩
  have h2 := hb.2
  unfold navRun
  omega

/-- C10 witness: after next, next, next, prev on a 3-page document the
index is within bounds. -/
theorem currentPage_in_bounds_witness :
    0 ≤ navRun 3 [NavOp.next, NavOp.next, NavOp.next, NavOp.prev] ∧
      navRun 3 [NavOp.next, NavOp.next, NavOp.next, NavOp.prev] < 3 := by
  have h := currentPage_in_bounds 3 (by norm_num)
    [NavOp.next, NavOp.next, NavOp.next, NavOp.prev]
  exact ⟨h.2.1, by exact_mod_cast h.2.2⟩

end OCR
